import Mathlib

/-!
Verification development for the labflow client-side statistics and charting
engine (`ExperimentAnalysisModal` and `SVGChart`).

The JavaScript source is shallowly embedded as follows.

* A data row is an association list from parameter (column) names to raw cell
  strings; reading a missing key yields `none` (JS `undefined`).
* JS `parseFloat` is modelled by `parseFloat` below, returning `ParseResult`:
  `nan` for unparsable input, `inf` for a parse of the `Infinity` literal, and
  `fin q` for a finite parse, with the finite value represented as an exact
  rational.  JS number arithmetic on finite values is idealized as exact
  rational (and, where square roots occur, real) arithmetic; this embedding
  does not model floating-point rounding.
* The list `parsedValues` models the source's
  `data.map(row => parseFloat(row[param.name])).filter(v => !isNaN(v))`
  exactly (note that an `Infinity` parse passes the `!isNaN` filter).
  `values` is its restriction to the finite parses; all numeric statistics
  below are computed over `values`, which agrees with the source whenever no
  cell parses to `Infinity` (the situation covered by every numeric theorem
  below).  The presence/absence guard of `statistics` uses `parsedValues`,
  which is exact in all cases.
* `sqrt`-valued quantities of the source (`stdDev`, `cv`, the correlation
  value) are real-valued functions of the rational statistics record.
-/

namespace LabFlow

/-- A measurement row: association list from parameter name to raw cell text. -/
abbrev Row := List (String × String)

/-- `row[name]`: first binding of `name` in the row, `none` when absent. -/
def rowGet (r : Row) (k : String) : Option String :=
  (r.find? (fun kv => kv.1 == k)).map (fun kv => kv.2)

/-- An experiment parameter (`{name, unit}`). -/
structure Param where
  name : String
  unit : String
deriving DecidableEq

/-- Result of JS `parseFloat`: not-a-number, a signed infinity, or a finite
value (idealized as an exact rational). -/
inductive ParseResult where
  | nan : ParseResult
  | inf : Bool → ParseResult
  | fin : ℚ → ParseResult
deriving DecidableEq

def ParseResult.isNaN : ParseResult → Bool
  | .nan => true
  | _ => false

def ParseResult.isInf : ParseResult → Bool
  | .inf _ => true
  | _ => false

def ParseResult.toFin : ParseResult → Option ℚ
  | .fin q => some q
  | _ => none

/-- Finite value of a parse result; `0` (unused junk) on `nan`/`inf`. -/
def ParseResult.toQ : ParseResult → ℚ
  | .fin q => q
  | _ => 0

/-- JS whitespace skipped by `parseFloat` (common subset). -/
def isWS (c : Char) : Bool :=
  c == ' ' || c == '\t' || c == '\n' || c == '\r'

/-- Split a character list into its leading run of decimal digits and the rest. -/
def takeDigits : List Char → List Char × List Char
  | [] => ([], [])
  | c :: t =>
    if c.isDigit then
      let p := takeDigits t
      (c :: p.1, p.2)
    else ([], c :: t)

/-- Numeric value of a digit run (most significant first). -/
def natOfDigits (ds : List Char) : ℕ :=
  ds.foldl (fun a c => 10 * a + (c.toNat - 48)) 0

/-- Apply an optional exponent suffix (after `e`/`E`) to a parsed mantissa,
as JS `parseFloat` does; an empty exponent digit run leaves the value as is. -/
def applyExp (base : ℚ) (t : List Char) : ℚ :=
  let p : Bool × List Char :=
    match t with
    | '+' :: u => (false, u)
    | '-' :: u => (true, u)
    | _ => (false, t)
  let eds := (takeDigits p.2).1
  if eds = [] then base
  else base * (10 : ℚ) ^ (if p.1 then -(natOfDigits eds : ℤ) else (natOfDigits eds : ℤ))

/-- Parse an unsigned decimal literal prefix (`digits[.digits][(e|E)[sign]digits]`);
`none` when no digit occurs before the exponent position. -/
def parseDecimal (cs : List Char) : Option ℚ :=
  let ipr := takeDigits cs
  let fpr : List Char × List Char :=
    match ipr.2 with
    | '.' :: t => takeDigits t
    | _ => ([], ipr.2)
  if ipr.1 = [] ∧ fpr.1 = [] then none
  else
    let base : ℚ := (natOfDigits (ipr.1 ++ fpr.1) : ℚ) / (10 : ℚ) ^ fpr.1.length
    some (match fpr.2 with
      | 'e' :: t => applyExp base t
      | 'E' :: t => applyExp base t
      | _ => base)

/-- Model of JS `parseFloat` on a string: skip leading whitespace, optional
sign, then either the `Infinity` literal or the longest decimal-literal
prefix; `nan` when nothing parses. -/
def parseFloatStr (s : String) : ParseResult :=
  let cs := s.toList.dropWhile isWS
  let p : Bool × List Char :=
    match cs with
    | '-' :: t => (true, t)
    | '+' :: t => (false, t)
    | _ => (false, cs)
  match p.2 with
  | 'I' :: 'n' :: 'f' :: 'i' :: 'n' :: 'i' :: 't' :: 'y' :: _ => .inf p.1
  | _ =>
    match parseDecimal p.2 with
    | none => .nan
    | some q => .fin (if p.1 then -q else q)

/-- JS `parseFloat(row[name])`: a missing cell is `undefined`, which
stringifies to `"undefined"` and parses to `NaN`. -/
def parseFloat : Option String → ParseResult
  | none => .nan
  | some s => parseFloatStr s

/-- Source lines 440-442: `data.map(row => parseFloat(row[param.name]))
.filter(v => !isNaN(v))` — the parameter's filtered value sequence.  Note the
filter drops exactly the `NaN` parses, so `Infinity` parses are retained. -/
def parsedValues (p : String) (rows : List Row) : List ParseResult :=
  (rows.map (fun r => parseFloat (rowGet r p))).filter (fun v => !v.isNaN)

/-- The finite members of `parsedValues`, in order: the idealized numeric
value sequence over which the statistics below are computed.  Coincides with
`parsedValues` whenever no cell of the parameter parses to `Infinity`. -/
def values (p : String) (rows : List Row) : List ℚ :=
  (parsedValues p rows).filterMap ParseResult.toFin

/-- The per-parameter statistics record of source lines 449-487.  `stdDev`
and `cv` are irrational-valued and are modelled as the functions
`Stats.stdDev`/`Stats.cv` of this record. -/
structure Stats where
  n : ℕ
  mean : ℚ
  median : ℚ
  min : ℚ
  max : ℚ
  range : ℚ
  variance : ℚ
  trend : ℚ
  values : List ℚ
deriving DecidableEq

/-- JS `Math.min(...l)` for nonempty `l` (junk `0` on `[]`, a case the source
reaches only behind its emptiness guards). -/
def jsMin : List ℚ → ℚ
  | [] => 0
  | h :: t => t.foldl Min.min h

/-- JS `Math.max(...l)` for nonempty `l` (junk `0` on `[]`). -/
def jsMax : List ℚ → ℚ
  | [] => 0
  | h :: t => t.foldl Max.max h

/-- Insert into an ascending-sorted list, keeping it sorted. -/
def insertSorted (a : ℚ) : List ℚ → List ℚ
  | [] => [a]
  | b :: t => if a ≤ b then a :: b :: t else b :: insertSorted a t

/-- JS `[...values].sort((a, b) => a - b)`: ascending numeric sort, modelled
as insertion sort. -/
def sortAsc (l : List ℚ) : List ℚ :=
  l.foldr insertSorted []

/-- Source lines 449-487: the statistics computed from a filtered value
sequence.  `values.forEach((y, x) => ...)` of the trend computation is
embedded as a sum over the index range, with `vs.getD x 0` the `x`-th
element (`x < n` throughout the loop). -/
def computeStats (vs : List ℚ) : Stats :=
  let n := vs.length
  let mean := vs.sum / (n : ℚ)
  let sorted := sortAsc vs
  let median :=
    if n % 2 = 0 then (sorted.getD (n / 2 - 1) 0 + sorted.getD (n / 2) 0) / 2
    else sorted.getD (n / 2) 0
  let mn := jsMin vs
  let mx := jsMax vs
  let variance := (vs.map (fun v => (v - mean) ^ 2)).sum / (n : ℚ)
  let trend :=
    if 1 < n then
      let xMean : ℚ := ((n : ℚ) - 1) / 2
      let num := ∑ x ∈ Finset.range n, ((x : ℚ) - xMean) * (vs.getD x 0 - mean)
      let den := ∑ x ∈ Finset.range n, ((x : ℚ) - xMean) ^ 2
      if den ≠ 0 then num / den else 0
    else 0
  { n := n, mean := mean, median := median, min := mn, max := mx,
    range := mx - mn, variance := variance, trend := trend, values := vs }

/-- Source lines 444-447 and 475-487: the statistics entry for a parameter is
`null` exactly when the filtered value sequence is empty; otherwise it is the
computed record. -/
def statistics (p : String) (rows : List Row) : Option Stats :=
  if parsedValues p rows = [] then none
  else some (computeStats (values p rows))

/-- Source line 459: `stdDev = Math.sqrt(variance)`. -/
noncomputable def Stats.stdDev (s : Stats) : ℝ :=
  Real.sqrt ((s.variance : ℝ))

/-- Source line 460: `cv = (stdDev / mean) * 100`. -/
noncomputable def Stats.cv (s : Stats) : ℝ :=
  s.stdDev / (s.mean : ℝ) * 100

/-- Source lines 516-519: the Pearson numerator loop
`for k in [0, n): sum += (v1[k] - mean1) * (v2[k] - mean2)`. -/
def corrSum (s1 s2 : Stats) (n : ℕ) : ℚ :=
  ∑ k ∈ Finset.range n, (s1.values.getD k 0 - s1.mean) * (s2.values.getD k 0 - s2.mean)

/-- Source lines 505-523: the correlation value for a qualifying pair,
`sum / (n * std1 * std2)` when both standard deviations are positive and `0`
otherwise, with `n = min(v1.length, v2.length)`. -/
noncomputable def corrValue (s1 s2 : Stats) : ℝ :=
  let n := Nat.min s1.values.length s2.values.length
  if 0 < s1.stdDev ∧ 0 < s2.stdDev then
    ((corrSum s1 s2 n : ℚ) : ℝ) / ((n : ℝ) * s1.stdDev * s2.stdDev)
  else 0

/-- Source line 529: strength classification of a correlation value. -/
noncomputable def strengthOf (r : ℝ) : String :=
  if 0.7 < |r| then "strong" else if 0.4 < |r| then "moderate" else "weak"

/-- The ordered pairs `(names[i], names[j])`, `i < j`, in the nested loop
order of source lines 498-501. -/
def pairsIJ (names : List String) : List (String × String) :=
  names.enum.flatMap (fun ip => (names.drop (ip.1 + 1)).map (fun p2 => (ip.2, p2)))

/-- Source lines 503-509: a pair enters the correlation computation when both
parameters have a statistics entry and the shorter filtered value sequence
has at least 2 elements.  The guards are stated on `parsedValues`, which is
exactly the source's `statistics[p].values`. -/
def corrQualifies (rows : List Row) (pq : String × String) : Bool :=
  !(parsedValues pq.1 rows).isEmpty && !(parsedValues pq.2 rows).isEmpty &&
    decide (2 ≤ Nat.min (parsedValues pq.1 rows).length (parsedValues pq.2 rows).length)

/-- The pairs for which source lines 494-535 produce a correlation entry, in
production order. -/
def corrPairs (params : List Param) (rows : List Row) : List (String × String) :=
  (pairsIJ (params.map Param.name)).filter (corrQualifies rows)

/-- Source line 525: the result key `` `${p1}-${p2}` ``. -/
def corrKey (pq : String × String) : String :=
  pq.1 ++ "-" ++ pq.2

/-- The keys under which correlation entries are stored, in production order
(with possible duplicates). -/
def correlationKeys (params : List Param) (rows : List Row) : List String :=
  (corrPairs params rows).map corrKey

/-- JS object property assignment: `m[k] = v` replaces the value of an
existing key in place, otherwise appends the new binding. -/
def objInsert (m : List (String × (String × String))) (k : String) (v : String × String) :
    List (String × (String × String)) :=
  if m.any (fun kv => kv.1 == k) then m.map (fun kv => if kv.1 == k then (k, v) else kv)
  else m ++ [(k, v)]

/-- The `corrs` result object of source lines 494-535, modelled at the level
of which parameter pair each stored key ends up describing (the numeric
payload of an entry for pair `(p1, p2)` is
`corrValue (computeStats (values p1 rows)) (computeStats (values p2 rows))`). -/
def corrObject (params : List Param) (rows : List Row) : List (String × (String × String)) :=
  (corrPairs params rows).foldl (fun m pq => objInsert m (corrKey pq) pq) []

/-! ### SVG chart renderer (source lines 1061-1246) -/

inductive ChartType where
  | line : ChartType
  | bar : ChartType
  | scatter : ChartType
deriving DecidableEq

/-- Source lines 1062-1066: `width - padding.left - padding.right = 610`. -/
def chartWidth : ℚ := 700 - 60 - 30

/-- Source lines 1063-1066: `height - padding.top - padding.bottom = 240`. -/
def chartHeight : ℚ := 300 - 20 - 40

/-- Source lines 1073-1077: all selected parameters' filtered numeric values,
concatenated (same `parseFloat`/`!isNaN` filter as the statistics, here taken
in its finite idealization `values`). -/
def allValues (params : List Param) (data : List Row) : List ℚ :=
  params.foldl (fun acc p => acc ++ values p.name data) []

def minY (params : List Param) (data : List Row) : ℚ :=
  jsMin (allValues params data)

def maxY (params : List Param) (data : List Row) : ℚ :=
  jsMax (allValues params data)

/-- Source line 1081: `yRange = maxY - minY || 1`. -/
def yRange (params : List Param) (data : List Row) : ℚ :=
  if maxY params data - minY params data = 0 then 1 else maxY params data - minY params data

/-- Source line 1083. -/
def scaleY (params : List Param) (data : List Row) (v : ℚ) : ℚ :=
  chartHeight - (v - minY params data) / yRange params data * chartHeight

/-- Source line 1084: `scaleX(i) = (i / (data.length - 1 || 1)) * chartWidth`. -/
def scaleX (dataLen : ℕ) (i : ℚ) : ℚ :=
  i / (if (dataLen : ℚ) - 1 = 0 then 1 else (dataLen : ℚ) - 1) * chartWidth

structure TrendLine where
  x1 : ℚ
  y1 : ℚ
  x2 : ℚ
  y2 : ℚ
deriving DecidableEq

structure BarRect where
  x : ℚ
  y : ℚ
  w : ℚ
  h : ℚ
deriving DecidableEq

/-- Source line 1162: the per-series parses of every row (unfiltered). -/
def seriesParsed (name : String) (data : List Row) : List ParseResult :=
  data.map (fun row => parseFloat (rowGet row name))

/-- Source line 1163: `values.map((v, i) => ({x: scaleX(i), y: scaleY(v),
valid: !isNaN(v)}))`; the `y` of a non-finite point is junk (the source holds
`NaN` there, this embedding `scaleY 0`) and is only read for valid points. -/
def validPoints (params : List Param) (data : List Row) (name : String) :
    List (ℚ × ℚ × Bool) :=
  (seriesParsed name data).mapIdx
    (fun i v => (scaleX data.length (i : ℚ), scaleY params data v.toQ, !v.isNaN))

/-- Source lines 1166-1181: the valid points of a series, as drawn by the
line/scatter modes. -/
def pointsFor (params : List Param) (data : List Row) (name : String) : List (ℚ × ℚ) :=
  ((validPoints params data name).filter (fun p => p.2.2)).map (fun p => (p.1, p.2.1))

/-- Source lines 1186-1204: bar mode.  `validPoints.filter(p => p.valid)
.map((p, i) => rect)` — note the rect's `x` uses the index `i` within the
filtered list, while `p.y` carries the row's value. -/
def barsFor (params : List Param) (data : List Row) (paramIndex : ℕ) (name : String) :
    List BarRect :=
  let barWidth := chartWidth / (data.length : ℚ) / (params.length : ℚ) * 0.8
  let offset := (paramIndex : ℚ) * barWidth
  ((validPoints params data name).filter (fun p => p.2.2)).mapIdx
    (fun i p =>
      { x := scaleX data.length (i : ℚ) - barWidth * (params.length : ℚ) / 2 + offset,
        y := p.2.1, w := barWidth, h := chartHeight - p.2.1 })

/-- Source lines 1221-1242: the trend overlay of one series in line mode —
`null` when the series has no statistics or `|trend| < 0.1`, otherwise a
dashed line from `(0, scaleY(startY))` to `(chartWidth, scaleY(endY))` with
`startY/endY = mean ∓ trend * (data.length - 1) / 2`. -/
def trendLineFor (params : List Param) (data : List Row) (stats : Option Stats) :
    Option TrendLine :=
  match stats with
  | none => none
  | some s =>
    if |s.trend| < 0.1 then none
    else
      let startY := s.mean - s.trend * ((data.length : ℚ) - 1) / 2
      let endY := s.mean + s.trend * ((data.length : ℚ) - 1) / 2
      some { x1 := 0, y1 := scaleY params data startY,
             x2 := chartWidth, y2 := scaleY params data endY }

/-- The declarative scene produced by `SVGChart` when it draws a chart:
y-axis tick values (source lines 1087-1092) and the per-series marks of the
active mode, keyed by parameter name. -/
structure Scene where
  yTicks : List ℚ
  lineSeries : List (String × List (ℚ × ℚ))
  barSeries : List (String × List BarRect)
  scatterSeries : List (String × List (ℚ × ℚ))
  trendLines : List (String × TrendLine)
deriving DecidableEq

inductive ChartOutput where
  | emptyState : String → ChartOutput
  | scene : Scene → ChartOutput
deriving DecidableEq

def sceneTrendLines : ChartOutput → List (String × TrendLine)
  | .emptyState _ => []
  | .scene sc => sc.trendLines

def sceneBarSeries : ChartOutput → List (String × List BarRect)
  | .emptyState _ => []
  | .scene sc => sc.barSeries

def isEmptyState : ChartOutput → Bool
  | .emptyState _ => true
  | .scene _ => false

/-- Source lines 1061-1246: the `SVGChart` component.  Lines 1068-1070 return
the explicit empty-state placeholder when the row list or the parameter list
is empty; otherwise an SVG scene is produced. -/
def svgChart (data : List Row) (params : List Param) (stats : String → Option Stats)
    (type : ChartType) : ChartOutput :=
  if data.length = 0 ∨ params.length = 0 then .emptyState "No data to display"
  else .scene
    { yTicks := (List.range 6).map
        (fun i : ℕ => minY params data + yRange params data * (i : ℚ) / 5),
      lineSeries :=
        if type = .line then params.map (fun p => (p.name, pointsFor params data p.name))
        else [],
      barSeries :=
        if type = .bar then
          params.enum.map (fun ip => (ip.2.name, barsFor params data ip.1 ip.2.name))
        else [],
      scatterSeries :=
        if type = .scatter then params.map (fun p => (p.name, pointsFor params data p.name))
        else [],
      trendLines :=
        if type = .line then
          params.filterMap
            (fun p => (trendLineFor params data (stats p.name)).map (fun tl => (p.name, tl)))
        else [] }

/-- Source lines 828-841 (`ChartsTab`): when no parameter is selected an
empty-state placeholder is rendered in place of the chart; otherwise
`SVGChart` is invoked on the selected subset of the parameters. -/
def chartsTabChart (data : List Row) (params : List Param) (selectedParams : List String)
    (stats : String → Option Stats) (type : ChartType) : ChartOutput :=
  if 0 < selectedParams.length then
    svgChart data (params.filter (fun p => selectedParams.contains p.name)) stats type
  else .emptyState "Select parameters to visualize"

/-! ### Concrete inputs used by the theorems -/

/-- The end-to-end scenario rows of the spec (§8). -/
def rowsTY : List Row :=
  [[("Temp", "20"), ("Yield", "50")],
   [("Temp", "25"), ("Yield", "55")],
   [("Temp", "30"), ("Yield", "60")]]

def paramsTY : List Param := [⟨"Temp", "C"⟩, ⟨"Yield", "%"⟩]

def statsTemp : Stats := computeStats (values "Temp" rowsTY)

def statsYield : Stats := computeStats (values "Yield" rowsTY)

/-- Rows where parameter `A` has 2 finite cells and `B` has 3, so that the
correlation loop truncates to `n = 2` while using full-sequence means and
standard deviations. -/
def rowsAB : List Row :=
  [[("A", "0"), ("B", "0")], [("A", "10"), ("B", "10")], [("A", "abc"), ("B", "5")]]

def paramsAB : List Param := [⟨"A", "u"⟩, ⟨"B", "u"⟩]

/-- Rows whose only cell parses to `Infinity`. -/
def rowsInf1 : List Row := [[("x", "Infinity")]]

/-- Rows with one `Infinity` cell and one finite cell. -/
def rowsInf2 : List Row := [[("x", "Infinity")], [("x", "5")]]

/-- The spec's §8 non-numeric-cell example rows. -/
def rows57 : List Row := [[("x", "5")], [("x", "abc")], [("x", "7")]]

/-- Parameter `P1` with 1 finite cell, `P2` with 5, for the insufficient-pair
example. -/
def rowsOneFive : List Row :=
  [[("P1", "1"), ("P2", "1")], [("P1", "no"), ("P2", "2")], [("P2", "3")],
   [("P1", ""), ("P2", "4")], [("P1", "x"), ("P2", "5")]]

def paramsOneFive : List Param := [⟨"P1", "u"⟩, ⟨"P2", "u"⟩]

/-- Parameter names containing hyphens so that the unordered pairs
`(a, b-c)` and `(a-b, c)` share the key `a-b-c`. -/
def paramsHyphen : List Param := [⟨"a", "u"⟩, ⟨"b-c", "u"⟩, ⟨"a-b", "u"⟩, ⟨"c", "u"⟩]

def rowsHyphen : List Row :=
  [[("a", "1"), ("b-c", "2"), ("a-b", "3"), ("c", "4")],
   [("a", "2"), ("b-c", "1"), ("a-b", "5"), ("c", "6")]]

/-- Rows whose series `x` is `0, <non-numeric>, 0.1`: its filtered sequence
has 2 elements and trend exactly `0.1`, while the row count is 3. -/
def rowsEdge : List Row := [[("x", "0")], [("x", "abc")], [("x", "0.1")]]

def paramsEdge : List Param := [⟨"x", "u"⟩]

/-- Rows whose series `P` has a non-numeric first cell before its single
valid cell (row index 1). -/
def rowsBar : List Row := [[("P", "abc")], [("P", "5")]]

def paramsBar : List Param := [⟨"P", "u"⟩]

/-- Second definition for the refinement part of the trend claim, following
the spec's words: the ordinary least-squares slope of the values against
their 0-based index, computed as covariance over the variance of the index
sequence, with slope 0 when the index variance is 0 (n ≤ 1). -/
def specOlsSlope (vs : List ℚ) : ℚ :=
  let n := vs.length
  let xMean : ℚ := ((n : ℚ) - 1) / 2
  let yMean : ℚ := vs.sum / (n : ℚ)
  let cov := (∑ x ∈ Finset.range n, ((x : ℚ) - xMean) * (vs.getD x 0 - yMean)) / (n : ℚ)
  let varX := (∑ x ∈ Finset.range n, ((x : ℚ) - xMean) ^ 2) / (n : ℚ)
  if varX = 0 then 0 else cov / varX

/-- The arithmetic sequence `a, a+d, ..., a+(n-1)d`. -/
def arithSeq (a d : ℚ) (n : ℕ) : List ℚ :=
  (List.range n).map (fun i : ℕ => a + d * (i : ℚ))

/-! ### Unfolding lemmas for the statistics record -/

theorem computeStats_n (vs : List ℚ) : (computeStats vs).n = vs.length := rfl

theorem computeStats_values (vs : List ℚ) : (computeStats vs).values = vs := rfl

theorem computeStats_mean (vs : List ℚ) :
    (computeStats vs).mean = vs.sum / (vs.length : ℚ) := rfl

theorem computeStats_min (vs : List ℚ) : (computeStats vs).min = jsMin vs := rfl

theorem computeStats_max (vs : List ℚ) : (computeStats vs).max = jsMax vs := rfl

theorem computeStats_median (vs : List ℚ) :
    (computeStats vs).median =
      if vs.length % 2 = 0 then
        ((sortAsc vs).getD (vs.length / 2 - 1) 0 + (sortAsc vs).getD (vs.length / 2) 0) / 2
      else (sortAsc vs).getD (vs.length / 2) 0 := rfl

theorem computeStats_variance (vs : List ℚ) :
    (computeStats vs).variance =
      (vs.map (fun v => (v - vs.sum / (vs.length : ℚ)) ^ 2)).sum / (vs.length : ℚ) := rfl

theorem computeStats_trend (vs : List ℚ) :
    (computeStats vs).trend =
      if 1 < vs.length then
        if (∑ x ∈ Finset.range vs.length, ((x : ℚ) - ((vs.length : ℚ) - 1) / 2) ^ 2) ≠ 0 then
          (∑ x ∈ Finset.range vs.length,
              ((x : ℚ) - ((vs.length : ℚ) - 1) / 2) * (vs.getD x 0 - vs.sum / (vs.length : ℚ))) /
            ∑ x ∈ Finset.range vs.length, ((x : ℚ) - ((vs.length : ℚ) - 1) / 2) ^ 2
        else 0
      else 0 := rfl

/-! ### List and sum helpers -/

theorem foldl_min_le_init (t : List ℚ) (a : ℚ) : t.foldl Min.min a ≤ a := by
  induction t generalizing a with
  | nil => exact le_refl a
  | cons b t ih => exact le_trans (ih (Min.min a b)) (min_le_left a b)

theorem foldl_min_le_mem (t : List ℚ) (a x : ℚ) (hx : x ∈ t) : t.foldl Min.min a ≤ x := by
  induction t generalizing a with
  | nil => cases hx
  | cons b t ih =>
    rcases List.mem_cons.mp hx with h | h
    · subst h
      exact le_trans (foldl_min_le_init t (Min.min a x)) (min_le_right a x)
    · exact ih (Min.min a b) h

theorem jsMin_le (l : List ℚ) (x : ℚ) (hx : x ∈ l) : jsMin l ≤ x := by
  cases l with
  | nil => cases hx
  | cons h t =>
    rcases List.mem_cons.mp hx with hh | hh
    · subst hh
      exact foldl_min_le_init t x
    · exact foldl_min_le_mem t h x hh

theorem init_le_foldl_max (t : List ℚ) (a : ℚ) : a ≤ t.foldl Max.max a := by
  induction t generalizing a with
  | nil => exact le_refl a
  | cons b t ih => exact le_trans (le_max_left a b) (ih (Max.max a b))

theorem mem_le_foldl_max (t : List ℚ) (a x : ℚ) (hx : x ∈ t) : x ≤ t.foldl Max.max a := by
  induction t generalizing a with
  | nil => cases hx
  | cons b t ih =>
    rcases List.mem_cons.mp hx with h | h
    · subst h
      exact le_trans (le_max_right a x) (init_le_foldl_max t (Max.max a x))
    · exact ih (Max.max a b) h

theorem le_jsMax (l : List ℚ) (x : ℚ) (hx : x ∈ l) : x ≤ jsMax l := by
  cases l with
  | nil => cases hx
  | cons h t =>
    rcases List.mem_cons.mp hx with hh | hh
    · subst hh
      exact init_le_foldl_max t x
    · exact mem_le_foldl_max t h x hh

theorem mem_insertSorted (a x : ℚ) (l : List ℚ) :
    x ∈ insertSorted a l ↔ x = a ∨ x ∈ l := by
  induction l with
  | nil => simp [insertSorted]
  | cons b t ih =>
    rw [insertSorted]
    split_ifs with hb
    · simp [List.mem_cons]
    · simp only [List.mem_cons, ih]
      tauto

theorem mem_sortAsc (x : ℚ) (l : List ℚ) : x ∈ sortAsc l ↔ x ∈ l := by
  induction l with
  | nil => simp [sortAsc]
  | cons b t ih =>
    show x ∈ insertSorted b (sortAsc t) ↔ _
    rw [mem_insertSorted, ih, List.mem_cons]

theorem length_insertSorted (a : ℚ) (l : List ℚ) :
    (insertSorted a l).length = l.length + 1 := by
  induction l with
  | nil => rfl
  | cons b t ih =>
    rw [insertSorted]
    split_ifs with hb
    · rfl
    · simp [ih]

theorem length_sortAsc (l : List ℚ) : (sortAsc l).length = l.length := by
  induction l with
  | nil => rfl
  | cons b t ih =>
    show (insertSorted b (sortAsc t)).length = t.length + 1
    rw [length_insertSorted, ih]

/-- A mapped list sum as a sum over the index range (`getD` view). -/
theorem list_map_sum_getD (vs : List ℚ) (F : ℚ → ℚ) :
    (vs.map F).sum = ∑ i ∈ Finset.range vs.length, F (vs.getD i 0) := by
  induction vs with
  | nil => simp
  | cons h t ih =>
    rw [List.map_cons, List.sum_cons, List.length_cons, Finset.sum_range_succ' _ t.length]
    simp only [List.getD_cons_succ, List.getD_cons_zero]
    rw [ih]
    ring

/-- A sum of a mapped index range as a `Finset.range` sum. -/
theorem list_sum_map_range (n : ℕ) (f : ℕ → ℚ) :
    ((List.range n).map f).sum = ∑ i ∈ Finset.range n, f i := by
  induction n with
  | zero => simp
  | succ m ih =>
    rw [List.range_succ, List.map_append, List.sum_append, Finset.sum_range_succ, ih]
    simp

theorem sum_range_cast (n : ℕ) :
    (∑ x ∈ Finset.range n, (x : ℚ)) = (n : ℚ) * ((n : ℚ) - 1) / 2 := by
  cases n with
  | zero => simp
  | succ m =>
    have h := Finset.sum_range_id_mul_two (m + 1)
    have hq : ((∑ i ∈ Finset.range (m + 1), i : ℕ) : ℚ) * 2 = ((m + 1) * m : ℕ) := by
      exact_mod_cast congrArg (fun k : ℕ => (k : ℚ)) h
    rw [Nat.cast_sum] at hq
    push_cast at hq ⊢
    linarith

/-- The index-variance denominator of the trend slope is positive for `n ≥ 2`. -/
theorem trend_den_pos (n : ℕ) (hn : 2 ≤ n) :
    0 < ∑ x ∈ Finset.range n, ((x : ℚ) - ((n : ℚ) - 1) / 2) ^ 2 := by
  have hn1 : (2 : ℚ) ≤ (n : ℚ) := by exact_mod_cast hn
  apply Finset.sum_pos' (fun i _ => sq_nonneg _)
  refine ⟨0, Finset.mem_range.mpr (by omega), ?_⟩
  apply pow_two_pos_of_ne_zero
  intro h0
  have : ((n : ℚ) - 1) / 2 = 0 := by linarith [h0]
  nlinarith

/-! ### C8: min ≤ median ≤ max and min ≤ mean ≤ max -/

/-- C8: for every nonempty filtered value sequence, the computed statistics
satisfy `min ≤ median ≤ max` and `min ≤ mean ≤ max`. -/
theorem stats_order_bounds (vs : List ℚ) (h : vs ≠ []) :
    (computeStats vs).min ≤ (computeStats vs).median ∧
    (computeStats vs).median ≤ (computeStats vs).max ∧
    (computeStats vs).min ≤ (computeStats vs).mean ∧
    (computeStats vs).mean ≤ (computeStats vs).max := by
  have hlen : 0 < vs.length := List.length_pos.mpr h
  have hlenq : (0 : ℚ) < (vs.length : ℚ) := by exact_mod_cast hlen
  have hgetD : ∀ i, i < vs.length → jsMin vs ≤ (sortAsc vs).getD i 0 ∧
      (sortAsc vs).getD i 0 ≤ jsMax vs := by
    intro i hi
    have hi' : i < (sortAsc vs).length := by rw [length_sortAsc]; exact hi
    rw [List.getD_eq_getElem _ _ hi']
    have hmem : (sortAsc vs)[i] ∈ vs := (mem_sortAsc _ vs).mp (List.getElem_mem hi')
    exact ⟨jsMin_le vs _ hmem, le_jsMax vs _ hmem⟩
  have hmedian : (computeStats vs).min ≤ (computeStats vs).median ∧
      (computeStats vs).median ≤ (computeStats vs).max := by
    rw [computeStats_min, computeStats_max, computeStats_median]
    split_ifs with hpar
    · have h2 : 2 ≤ vs.length := by omega
      obtain ⟨ha1, ha2⟩ := hgetD (vs.length / 2 - 1) (by omega)
      obtain ⟨hb1, hb2⟩ := hgetD (vs.length / 2) (by omega)
      constructor <;> linarith
    · exact hgetD (vs.length / 2) (by omega)
  have hsum_lo : (vs.length : ℚ) * jsMin vs ≤ vs.sum := by
    have := List.card_nsmul_le_sum vs (jsMin vs) (fun x hx => jsMin_le vs x hx)
    rwa [nsmul_eq_mul] at this
  have hsum_hi : vs.sum ≤ (vs.length : ℚ) * jsMax vs := by
    have := List.sum_le_card_nsmul vs (jsMax vs) (fun x hx => le_jsMax vs x hx)
    rwa [nsmul_eq_mul] at this
  refine ⟨hmedian.1, hmedian.2, ?_, ?_⟩
  · rw [computeStats_min, computeStats_mean, le_div_iff₀ hlenq]
    linarith
  · rw [computeStats_max, computeStats_mean, div_le_iff₀ hlenq]
    linarith

/-- Closed witness for `stats_order_bounds`. -/
theorem stats_order_bounds_witness :
    ([ (3 : ℚ), 1, 2] ≠ []) ∧
    ((computeStats [(3 : ℚ), 1, 2]).min ≤ (computeStats [(3 : ℚ), 1, 2]).median ∧
     (computeStats [(3 : ℚ), 1, 2]).median ≤ (computeStats [(3 : ℚ), 1, 2]).max ∧
     (computeStats [(3 : ℚ), 1, 2]).min ≤ (computeStats [(3 : ℚ), 1, 2]).mean ∧
     (computeStats [(3 : ℚ), 1, 2]).mean ≤ (computeStats [(3 : ℚ), 1, 2]).max) :=
  ⟨by simp, stats_order_bounds [(3 : ℚ), 1, 2] (by simp)⟩

/-! ### C9: trend is the OLS slope against the 0-based index -/

theorem arithSeq_length (a d : ℚ) (n : ℕ) : (arithSeq a d n).length = n := by
  rw [arithSeq, List.length_map, List.length_range]

theorem arithSeq_getD (a d : ℚ) (n x : ℕ) (hx : x < n) :
    (arithSeq a d n).getD x 0 = a + d * (x : ℚ) := by
  have hx' : x < (arithSeq a d n).length := by rwa [arithSeq_length]
  rw [List.getD_eq_getElem _ _ hx']
  simp only [arithSeq, List.getElem_map, List.getElem_range]

theorem arithSeq_sum (a d : ℚ) (n : ℕ) :
    (arithSeq a d n).sum = (n : ℚ) * a + d * ((n : ℚ) * ((n : ℚ) - 1) / 2) := by
  rw [arithSeq, list_sum_map_range, Finset.sum_add_distrib, Finset.sum_const,
    ← Finset.mul_sum, sum_range_cast, Finset.card_range, nsmul_eq_mul]

theorem arithSeq_mean (a d : ℚ) (n : ℕ) (hn : 0 < n) :
    (arithSeq a d n).sum / (n : ℚ) = a + d * (((n : ℚ) - 1) / 2) := by
  have hnq : (n : ℚ) ≠ 0 := Nat.cast_ne_zero.mpr (by omega)
  rw [arithSeq_sum]
  field_simp
  ring

theorem trend_arithSeq (a d : ℚ) (n : ℕ) (hn : 2 ≤ n) :
    (computeStats (arithSeq a d n)).trend = d := by
  rw [computeStats_trend, arithSeq_length, if_pos (by omega)]
  have hden := trend_den_pos n hn
  rw [if_pos (ne_of_gt hden)]
  have hnum : (∑ x ∈ Finset.range n,
      ((x : ℚ) - ((n : ℚ) - 1) / 2) * ((arithSeq a d n).getD x 0 - (arithSeq a d n).sum / (n : ℚ)))
      = d * ∑ x ∈ Finset.range n, ((x : ℚ) - ((n : ℚ) - 1) / 2) ^ 2 := by
    rw [Finset.mul_sum]
    apply Finset.sum_congr rfl
    intro x hx
    rw [arithSeq_getD a d n x (Finset.mem_range.mp hx), arithSeq_mean a d n (by omega)]
    ring
  rw [hnum, mul_div_assoc, div_self (ne_of_gt hden), mul_one]

theorem trend_replicate (c : ℚ) (n : ℕ) :
    (computeStats (List.replicate n c)).trend = 0 := by
  rw [computeStats_trend, List.length_replicate]
  by_cases hn : 1 < n
  · rw [if_pos hn]
    have hmean : (List.replicate n c).sum / (n : ℚ) = c := by
      have hnq : (n : ℚ) ≠ 0 := Nat.cast_ne_zero.mpr (by omega)
      rw [List.sum_replicate, nsmul_eq_mul]
      field_simp
    have hnum : (∑ x ∈ Finset.range n,
        ((x : ℚ) - ((n : ℚ) - 1) / 2) *
          ((List.replicate n c).getD x 0 - (List.replicate n c).sum / (n : ℚ))) = 0 := by
      apply Finset.sum_eq_zero
      intro x hx
      have hx' : x < n := Finset.mem_range.mp hx
      have hget : (List.replicate n c).getD x 0 = c := by
        rw [List.getD_eq_getElem _ _ (by simpa using hx'), List.getElem_replicate]
      rw [hget, hmean]
      ring
    rw [hnum]
    split_ifs <;> simp
  · rw [if_neg hn]

theorem trend_eq_specOlsSlope (vs : List ℚ) : (computeStats vs).trend = specOlsSlope vs := by
  rw [computeStats_trend]
  simp only [specOlsSlope]
  by_cases hn : 1 < vs.length
  · have hn' : 2 ≤ vs.length := hn
    have hden := trend_den_pos vs.length hn'
    have hnq : (vs.length : ℚ) ≠ 0 := Nat.cast_ne_zero.mpr (by omega)
    have hvarX : (∑ x ∈ Finset.range vs.length,
        ((x : ℚ) - ((vs.length : ℚ) - 1) / 2) ^ 2) / (vs.length : ℚ) ≠ 0 :=
      div_ne_zero (ne_of_gt hden) hnq
    rw [if_pos hn, if_pos (ne_of_gt hden), if_neg hvarX, div_div_div_cancel_right₀ hnq]
  · rw [if_neg hn]
    have h01 : vs.length = 0 ∨ vs.length = 1 := by omega
    rcases h01 with h0 | h1
    · rw [if_pos]
      rw [h0]
      simp
    · rw [if_pos]
      rw [h1]
      norm_num [Finset.sum_range_one]

/-! ### C1: the correlation value on equal-length sequences lies in [-1, 1] -/

/-- The sum of squared deviations over the index range equals `n · variance`. -/
theorem sum_sq_dev_eq (vs : List ℚ) :
    (∑ k ∈ Finset.range vs.length, (vs.getD k 0 - vs.sum / (vs.length : ℚ)) ^ 2)
      = (vs.length : ℚ) * (computeStats vs).variance := by
  rw [computeStats_variance]
  rcases List.eq_nil_or_concat vs with h | h
  · subst h
    simp
  · have hlen : vs.length ≠ 0 := by
      rcases h with ⟨l, a, rfl⟩
      simp
    have hq : (vs.length : ℚ) ≠ 0 := Nat.cast_ne_zero.mpr hlen
    rw [list_map_sum_getD vs (fun v => (v - vs.sum / (vs.length : ℚ)) ^ 2)]
    field_simp

/-- Variance of the empty sequence is `0` (so a positive standard deviation
forces a nonempty sequence). -/
theorem variance_nil : (computeStats ([] : List ℚ)).variance = 0 := by
  rw [computeStats_variance]
  simp

/-- Core bound: when the two value sequences have equal length, the
correlation value of their statistics lies in `[-1, 1]` (Cauchy-Schwarz). -/
theorem corrValue_bounds (vs1 vs2 : List ℚ) (h : vs1.length = vs2.length) :
    -1 ≤ corrValue (computeStats vs1) (computeStats vs2) ∧
    corrValue (computeStats vs1) (computeStats vs2) ≤ 1 := by
  have hsq_gen : ∀ vs : List ℚ,
      (∑ k ∈ Finset.range vs.length,
        (((vs.getD k 0 : ℚ) : ℝ) - ((computeStats vs).mean : ℝ)) ^ 2)
      = (vs.length : ℝ) * ((computeStats vs).variance : ℝ) := by
    intro vs
    have hq := sum_sq_dev_eq vs
    have hcast : ((∑ k ∈ Finset.range vs.length,
        (vs.getD k 0 - vs.sum / (vs.length : ℚ)) ^ 2 : ℚ) : ℝ)
        = (((vs.length : ℚ) * (computeStats vs).variance : ℚ) : ℝ) :=
      congrArg (fun q : ℚ => (q : ℝ)) hq
    rw [computeStats_mean]
    push_cast at hcast ⊢
    exact hcast
  rw [corrValue]
  by_cases hc : 0 < (computeStats vs1).stdDev ∧ 0 < (computeStats vs2).stdDev
  · rw [if_pos hc]
    obtain ⟨h1, h2⟩ := hc
    rw [Stats.stdDev] at h1 h2
    have hv1 : (0 : ℝ) < ((computeStats vs1).variance : ℝ) := Real.sqrt_pos.mp h1
    have hne1 : vs1 ≠ [] := by
      intro he
      rw [he, variance_nil] at hv1
      norm_num at hv1
    have hlen : 0 < vs1.length := List.length_pos.mpr hne1
    have hminn : Nat.min (computeStats vs1).values.length (computeStats vs2).values.length
        = vs1.length := by
      rw [computeStats_values, computeStats_values, h]
      exact Nat.min_self vs2.length
    rw [hminn]
    have hcast : ((corrSum (computeStats vs1) (computeStats vs2) vs1.length : ℚ) : ℝ)
        = ∑ k ∈ Finset.range vs1.length,
            (((vs1.getD k 0 : ℚ) : ℝ) - ((computeStats vs1).mean : ℝ))
              * (((vs2.getD k 0 : ℚ) : ℝ) - ((computeStats vs2).mean : ℝ)) := by
      rw [corrSum, computeStats_values, computeStats_values]
      push_cast
      rfl
    have hsq1 := hsq_gen vs1
    have hsq2 : (∑ k ∈ Finset.range vs1.length,
        (((vs2.getD k 0 : ℚ) : ℝ) - ((computeStats vs2).mean : ℝ)) ^ 2)
        = (vs1.length : ℝ) * ((computeStats vs2).variance : ℝ) := by
      rw [h]
      exact hsq_gen vs2
    have hD : Real.sqrt ((vs1.length : ℝ) * ((computeStats vs1).variance : ℝ))
        * Real.sqrt ((vs1.length : ℝ) * ((computeStats vs2).variance : ℝ))
        = (vs1.length : ℝ) * (Real.sqrt ((computeStats vs1).variance : ℝ)
            * Real.sqrt ((computeStats vs2).variance : ℝ)) := by
      rw [Real.sqrt_mul (by positivity), Real.sqrt_mul (by positivity)]
      rw [show Real.sqrt (vs1.length : ℝ) * Real.sqrt ((computeStats vs1).variance : ℝ)
          * (Real.sqrt (vs1.length : ℝ) * Real.sqrt ((computeStats vs2).variance : ℝ))
          = (Real.sqrt (vs1.length : ℝ) * Real.sqrt (vs1.length : ℝ))
            * (Real.sqrt ((computeStats vs1).variance : ℝ)
              * Real.sqrt ((computeStats vs2).variance : ℝ)) from by ring]
      rw [Real.mul_self_sqrt (by positivity)]
    have hcs_up := Real.sum_mul_le_sqrt_mul_sqrt (Finset.range vs1.length)
      (fun k => ((vs1.getD k 0 : ℚ) : ℝ) - ((computeStats vs1).mean : ℝ))
      (fun k => ((vs2.getD k 0 : ℚ) : ℝ) - ((computeStats vs2).mean : ℝ))
    have hcs_lo := Real.sum_mul_le_sqrt_mul_sqrt (Finset.range vs1.length)
      (fun k => -(((vs1.getD k 0 : ℚ) : ℝ) - ((computeStats vs1).mean : ℝ)))
      (fun k => ((vs2.getD k 0 : ℚ) : ℝ) - ((computeStats vs2).mean : ℝ))
    simp only [neg_mul, Finset.sum_neg_distrib, neg_sq] at hcs_lo
    rw [hsq1, hsq2, hD] at hcs_up hcs_lo
    have habs : |((corrSum (computeStats vs1) (computeStats vs2) vs1.length : ℚ) : ℝ)|
        ≤ (vs1.length : ℝ) * (computeStats vs1).stdDev * (computeStats vs2).stdDev := by
      rw [Stats.stdDev, Stats.stdDev, mul_assoc, hcast]
      exact abs_le.mpr ⟨by linarith, by linarith⟩
    have hDpos : (0 : ℝ) < (vs1.length : ℝ) * (computeStats vs1).stdDev
        * (computeStats vs2).stdDev := by
      rw [Stats.stdDev, Stats.stdDev]
      have hl : (0 : ℝ) < (vs1.length : ℝ) := by exact_mod_cast hlen
      have hv2 : (0 : ℝ) < ((computeStats vs2).variance : ℝ) := Real.sqrt_pos.mp h2
      positivity
    obtain ⟨hlo, hup⟩ := abs_le.mp habs
    constructor
    · rw [le_div_iff₀ hDpos]
      linarith
    · rw [div_le_one hDpos]
      exact hup
  · rw [if_neg hc]
    norm_num

/-- C1 (amended): for every row table and every pair of parameters whose
filtered value sequences have **equal** lengths, the correlation value lies
in `[-1, 1]`; when the lengths differ the truncated numerator is normalized
by the full-sequence standard deviations and the value can exceed `1` (see
the counterexample). -/
theorem correlation_value_in_unit_interval (rows : List Row) (p1 p2 : String)
    (h : (values p1 rows).length = (values p2 rows).length) :
    -1 ≤ corrValue (computeStats (values p1 rows)) (computeStats (values p2 rows)) ∧
    corrValue (computeStats (values p1 rows)) (computeStats (values p2 rows)) ≤ 1 :=
  corrValue_bounds (values p1 rows) (values p2 rows) h

/-! ### C4: trend overlay geometry (line mode) -/

/-- C4 (amended): in line chart mode a series' dashed trend overlay is drawn
iff the series has statistics and the trend magnitude is **at least** `0.1`
(the source draws at exactly `0.1` too); when drawn it runs from
`(0, scaleY(mean − trend·(R−1)/2))` to `(scaleX(R−1), scaleY(mean + trend·(R−1)/2))`
where `R = data.length` is the **total row count** (and `scaleX(R−1)` equals
the full chart width), not the series' count of valid values; no overlay is
produced in the other chart modes, and in line mode the scene holds exactly
the per-series overlays. -/
theorem trend_overlay_geometry (data : List Row) (params : List Param) (nm : String)
    (s : Stats) (hs : statistics nm data = some s) :
    (trendLineFor params data (statistics nm data) = none ↔ |s.trend| < 0.1) ∧
    (0.1 ≤ |s.trend| →
      trendLineFor params data (statistics nm data) =
        some { x1 := scaleX data.length 0,
               y1 := scaleY params data (s.mean - s.trend * ((data.length : ℚ) - 1) / 2),
               x2 := scaleX data.length ((data.length : ℚ) - 1),
               y2 := scaleY params data (s.mean + s.trend * ((data.length : ℚ) - 1) / 2) }) ∧
    (∀ ty : ChartType, ty ≠ ChartType.line →
      sceneTrendLines (svgChart data params (fun q => statistics q data) ty) = []) ∧
    (data ≠ [] → params ≠ [] →
      sceneTrendLines (svgChart data params (fun q => statistics q data) ChartType.line) =
        params.filterMap
          (fun p => (trendLineFor params data (statistics p.name data)).map
            (fun tl => (p.name, tl)))) := by
  have hseq : s = computeStats (values nm data) := by
    rw [statistics] at hs
    by_cases hempty : parsedValues nm data = []
    · rw [if_pos hempty] at hs
      cases hs
    · rw [if_neg hempty] at hs
      exact (Option.some.inj hs).symm
  refine ⟨?_, ?_, ?_, ?_⟩
  · rw [hs]
    simp only [trendLineFor]
    split_ifs with hlt
    · simp [hlt]
    · simp [hlt]
  · intro hge
    have hlt : ¬(|s.trend| < 0.1) := not_lt.mpr hge
    have htr : s.trend ≠ 0 := by
      intro h0
      rw [h0] at hge
      norm_num at hge
    have hn2 : 1 < (values nm data).length := by
      by_contra hle
      apply htr
      rw [hseq, computeStats_trend, if_neg hle]
    have hdata : 2 ≤ data.length := by
      have hle1 : (values nm data).length ≤ (parsedValues nm data).length :=
        List.length_filterMap_le _ _
      have hle2 : (parsedValues nm data).length ≤ data.length := by
        rw [parsedValues]
        calc (List.filter (fun v => !v.isNaN)
            (data.map (fun r => parseFloat (rowGet r nm)))).length
            ≤ (data.map (fun r => parseFloat (rowGet r nm))).length :=
              List.length_filter_le _ _
          _ = data.length := by rw [List.length_map]
      omega
    have hx1 : scaleX data.length 0 = 0 := by
      rw [scaleX, zero_div, zero_mul]
    have hx2 : scaleX data.length ((data.length : ℚ) - 1) = chartWidth := by
      have hq : (2 : ℚ) ≤ (data.length : ℚ) := by exact_mod_cast hdata
      have hne : ((data.length : ℚ) - 1) ≠ 0 := by
        intro h0
        linarith
      rw [scaleX, if_neg hne, div_self hne, one_mul]
    rw [hs]
    simp only [trendLineFor]
    rw [if_neg hlt, hx1, hx2]
  · intro ty hty
    by_cases hemp : data.length = 0 ∨ params.length = 0
    · rw [svgChart, if_pos hemp]
      rfl
    · rw [svgChart, if_neg hemp]
      simp only [sceneTrendLines]
      rw [if_neg hty]
  · intro hd hp
    rw [svgChart, if_neg (by simp [List.length_eq_zero, hd, hp])]
    simp only [sceneTrendLines]
    simp

/-! ### C5: bar geometry (bar mode) -/

/-- On a parse list without infinities, `filterMap toFin` is the `!isNaN`
filter followed by taking the finite values. -/
theorem filterMap_toFin_eq (l : List ParseResult) (hfin : ∀ v ∈ l, v.isInf = false) :
    l.filterMap ParseResult.toFin = (l.filter (fun v => !v.isNaN)).map ParseResult.toQ := by
  induction l with
  | nil => rfl
  | cons h t ih =>
    have ht : ∀ v ∈ t, v.isInf = false := fun v hv => hfin v (List.mem_cons_of_mem _ hv)
    cases h with
    | nan =>
      simp [List.filterMap_cons, List.filter_cons, ParseResult.toFin, ParseResult.isNaN, ih ht]
    | inf b => exact absurd (hfin _ (List.mem_cons_self _ _)) (by simp [ParseResult.isInf])
    | fin q =>
      simp [List.filterMap_cons, List.filter_cons, ParseResult.toFin, ParseResult.isNaN,
        ParseResult.toQ, ih ht]

/-- The y-projection of the kept (valid) points of an indexed point list is
the image of the finite parses (no infinities assumed). -/
theorem filter_mapIdx_proj (l : List ParseResult) (fx : ℕ → ℚ) (fy : ℚ → ℚ) :
    (∀ v ∈ l, v.isInf = false) →
    ((l.mapIdx (fun i v => (fx i, fy v.toQ, !v.isNaN))).filter
        (fun p => p.2.2)).map (fun p => p.2.1)
      = (l.filterMap ParseResult.toFin).map fy := by
  induction l generalizing fx with
  | nil => intro hfin; rfl
  | cons h t ih =>
    intro hfin
    have ht : ∀ v ∈ t, v.isInf = false := fun v hv => hfin v (List.mem_cons_of_mem _ hv)
    rw [List.mapIdx_cons]
    cases h with
    | nan =>
      have h1 : ParseResult.isNaN ParseResult.nan = true := rfl
      have h2 : ParseResult.toFin ParseResult.nan = none := rfl
      simp only [List.filter_cons, List.filterMap_cons, h1, h2, Bool.not_true, ite_false,
        reduceIte]
      exact ih (fun i => fx (i + 1)) ht
    | inf b => exact absurd (hfin _ (List.mem_cons_self _ _)) (by simp [ParseResult.isInf])
    | fin q =>
      have h1 : ParseResult.isNaN (ParseResult.fin q) = false := rfl
      have h2 : ParseResult.toFin (ParseResult.fin q) = some q := rfl
      have h3 : ParseResult.toQ (ParseResult.fin q) = q := rfl
      simp only [List.filter_cons, List.filterMap_cons, h1, h2, h3, Bool.not_false, ite_true,
        reduceIte, List.map_cons]
      rw [ih (fun i => fx (i + 1)) ht]

/-- Two indexed maps agree when the projections they consume agree. -/
theorem mapIdx_congr_proj {α β γ : Type} (G : ℕ → ℚ → γ) (p : α → ℚ) (f : β → ℚ)
    (l₁ : List α) (l₂ : List β) (h : l₁.map p = l₂.map f) :
    l₁.mapIdx (fun i a => G i (p a)) = l₂.mapIdx (fun i b => G i (f b)) := by
  have hlen : l₁.length = l₂.length := by
    have hl := congrArg List.length h
    rwa [List.length_map, List.length_map] at hl
  apply List.ext_getElem
  · rw [List.length_mapIdx, List.length_mapIdx]
    exact hlen
  · intro n h₁ h₂
    rw [List.getElem_mapIdx, List.getElem_mapIdx]
    have hn1 : n < l₁.length := by rwa [List.length_mapIdx] at h₁
    have hn1m : n < (l₁.map p).length := by rwa [List.length_map]
    have hgm := List.getElem_of_eq h hn1m
    rw [List.getElem_map, List.getElem_map] at hgm
    rw [hgm]

/-- C5 (amended): in bar chart mode, for every series exactly one bar is
emitted per cell that parses as a valid number, with width
`(chartWidth / rowCount / seriesCount) * 0.8` and height anchored at that
cell's scaled value; the bar's horizontal position is
`scaleX j − width·seriesCount/2 + seriesIndex·width` where `j` is the bar's
index **among the series' valid points** (the source reindexes after
filtering), which equals the row's own x-axis location only when no earlier
cell of the series is non-numeric; bars of one row across series are offset
from each other by series index relative to that per-series anchor.  Stated
for series without `Infinity` cells. -/
theorem bar_geometry (data : List Row) (params : List Param)
    (stats : String → Option Stats) (pIdx : ℕ) (nm : String)
    (hfin : ∀ v ∈ seriesParsed nm data, v.isInf = false) :
    barsFor params data pIdx nm =
      ((seriesParsed nm data).filterMap ParseResult.toFin).mapIdx
        (fun j q =>
          { x := scaleX data.length (j : ℚ)
              - chartWidth / (data.length : ℚ) / (params.length : ℚ) * 0.8
                * (params.length : ℚ) / 2
              + (pIdx : ℚ) * (chartWidth / (data.length : ℚ) / (params.length : ℚ) * 0.8),
            y := scaleY params data q,
            w := chartWidth / (data.length : ℚ) / (params.length : ℚ) * 0.8,
            h := chartHeight - scaleY params data q }) ∧
    (barsFor params data pIdx nm).length
      = ((seriesParsed nm data).filterMap ParseResult.toFin).length ∧
    (data ≠ [] → params ≠ [] →
      sceneBarSeries (svgChart data params stats ChartType.bar)
        = params.enum.map (fun ip => (ip.2.name, barsFor params data ip.1 ip.2.name))) := by
  have hmap := filter_mapIdx_proj (seriesParsed nm data)
    (fun i => scaleX data.length (i : ℚ)) (scaleY params data) hfin
  have hmain : barsFor params data pIdx nm =
      ((seriesParsed nm data).filterMap ParseResult.toFin).mapIdx
        (fun j q =>
          { x := scaleX data.length (j : ℚ)
              - chartWidth / (data.length : ℚ) / (params.length : ℚ) * 0.8
                * (params.length : ℚ) / 2
              + (pIdx : ℚ) * (chartWidth / (data.length : ℚ) / (params.length : ℚ) * 0.8),
            y := scaleY params data q,
            w := chartWidth / (data.length : ℚ) / (params.length : ℚ) * 0.8,
            h := chartHeight - scaleY params data q }) := by
    simp only [barsFor, validPoints]
    exact mapIdx_congr_proj
      (fun j y => BarRect.mk
        (scaleX data.length (j : ℚ)
          - chartWidth / (data.length : ℚ) / (params.length : ℚ) * 0.8
            * (params.length : ℚ) / 2
          + (pIdx : ℚ) * (chartWidth / (data.length : ℚ) / (params.length : ℚ) * 0.8))
        y
        (chartWidth / (data.length : ℚ) / (params.length : ℚ) * 0.8)
        (chartHeight - y))
      (fun p : ℚ × ℚ × Bool => p.2.1) (scaleY params data) _ _ hmap
  refine ⟨hmain, ?_, ?_⟩
  · rw [hmain, List.length_mapIdx]
  · intro hd hp
    rw [svgChart, if_neg (by simp [List.length_eq_zero, hd, hp])]
    simp only [sceneBarSeries]
    simp

/-! ### C7: empty input renders the empty-state placeholder -/

/-- C7: with an empty row list or an empty selected-parameter list, both the
`ChartsTab` chart slot and the `SVGChart` renderer produce the explicit
empty-state placeholder, never a chart scene (in particular not a blank
scene with axes, which would be a `scene` value). -/
theorem empty_input_renders_placeholder :
    (∀ (data : List Row) (params : List Param) (selectedParams : List String)
      (stats : String → Option Stats) (type : ChartType),
      data = [] ∨ selectedParams = [] →
      isEmptyState (chartsTabChart data params selectedParams stats type) = true) ∧
    (∀ (data : List Row) (params : List Param) (stats : String → Option Stats)
      (type : ChartType),
      data = [] ∨ params = [] →
      isEmptyState (svgChart data params stats type) = true) := by
  have hsvg : ∀ (data : List Row) (params : List Param) (stats : String → Option Stats)
      (type : ChartType), data = [] ∨ params = [] →
      isEmptyState (svgChart data params stats type) = true := by
    intro data params stats type h
    have hlen : data.length = 0 ∨ params.length = 0 := by
      rcases h with h | h <;> simp [h]
    rw [svgChart, if_pos hlen]
    rfl
  refine ⟨?_, hsvg⟩
  intro data params selectedParams stats type h
  rcases h with h | h
  · by_cases hs : 0 < selectedParams.length
    · rw [chartsTabChart, if_pos hs]
      exact hsvg _ _ _ _ (Or.inl h)
    · rw [chartsTabChart, if_neg hs]
      rfl
  · subst h
    rw [chartsTabChart, if_neg (by simp)]
    rfl

/-- Closed witness for `empty_input_renders_placeholder`. -/
theorem empty_input_renders_placeholder_witness :
    (([] : List Row) = [] ∨ (["Temp"] : List String) = []) ∧
    isEmptyState (chartsTabChart [] paramsTY ["Temp"] (fun _ => none) .line) = true :=
  ⟨Or.inl rfl,
    empty_input_renders_placeholder.1 [] paramsTY ["Temp"] (fun _ => none) .line (Or.inl rfl)⟩

section DecideEval

attribute [local semireducible] Rat.add Rat.mul Rat.inv Rat.sub Rat.ofScientific

/-- C3 counterexample: the source filter `!isNaN(v)` keeps an `Infinity`
parse, so for rows `[{x:"Infinity"},{x:"5"}]` the filtered sequence has 2
entries (not only the finite one), and for rows `[{x:"Infinity"}]` — where no
cell parses as a finite number — the statistics entry is present, not
absent.  This refutes the claim that `values` holds exactly the finite
parses and that the entry is absent when no cell parses as a finite number. -/
theorem infinity_parse_retained_cex :
    ParseResult.inf false ∈ parsedValues "x" rowsInf2 ∧
    (parsedValues "x" rowsInf2).length = 2 ∧
    (statistics "x" rowsInf1).isSome = true := by
  refine ⟨by decide, by decide, by decide⟩

/-- C3 (amended): the filtered sequence `values` contains exactly the cells
whose raw value does **not** parse as `NaN` (so a cell parsing to `Infinity`
is retained and counted, only unparsable cells are excluded and none is
treated as zero), and the statistics entry is absent exactly when every cell
parses as `NaN`; for rows `[{x:"5"},{x:"abc"},{x:"7"}]` the statistics for
`x` have `n = 2` and `mean = 6`. -/
theorem filtered_values_drop_only_nan :
    (∀ (p : String) (rows : List Row) (v : ParseResult),
      v ∈ parsedValues p rows ↔
        v ∈ rows.map (fun r => parseFloat (rowGet r p)) ∧ v.isNaN = false) ∧
    (∀ (p : String) (rows : List Row),
      statistics p rows = none ↔ parsedValues p rows = []) ∧
    values "x" rows57 = [5, 7] ∧
    statistics "x" rows57 = some (computeStats (values "x" rows57)) ∧
    (computeStats (values "x" rows57)).n = 2 ∧
    (computeStats (values "x" rows57)).mean = 6 := by
  refine ⟨?_, ?_, by decide, by decide, by decide, by decide⟩
  · intro p rows v
    simp [parsedValues, List.mem_filter]
  · intro p rows
    rw [statistics]
    split_ifs with h <;> simp [h]

/-- C6: the correlation loop skips every pair whose shorter filtered value
sequence has fewer than 2 entries — such a pair is omitted from the result,
never reported with value 0; in particular with parameter `P1` having 1
valid value and `P2` having 5, no entry at all is produced. -/
theorem insufficient_pair_omitted :
    (∀ (params : List Param) (rows : List Row) (p1 p2 : String),
      Nat.min (parsedValues p1 rows).length (parsedValues p2 rows).length < 2 →
      (p1, p2) ∉ corrPairs params rows) ∧
    (parsedValues "P1" rowsOneFive).length = 1 ∧
    (parsedValues "P2" rowsOneFive).length = 5 ∧
    corrPairs paramsOneFive rowsOneFive = [] ∧
    corrObject paramsOneFive rowsOneFive = [] := by
  refine ⟨?_, by decide, by decide, by decide, by decide⟩
  intro params rows p1 p2 h hmem
  have hq := (List.mem_filter.mp hmem).2
  rw [corrQualifies] at hq
  simp only [Bool.and_eq_true, decide_eq_true_eq] at hq
  omega

/-- Closed witness for `trend_overlay_geometry`. -/
theorem trend_overlay_geometry_witness :
    statistics "Temp" rowsTY = some statsTemp ∧
    (trendLineFor paramsTY rowsTY (statistics "Temp" rowsTY) = none ↔
      |statsTemp.trend| < 0.1) :=
  ⟨by decide, (trend_overlay_geometry rowsTY paramsTY "Temp" statsTemp (by decide)).1⟩

/-- C4 counterexample: for rows `x: "0", "abc", "0.1"` the series' trend is
exactly `0.1`, which does **not** exceed `0.1`, yet the overlay is drawn;
moreover the drawn line ends at `x2 = chartWidth = scaleX(rowCount − 1) = 610`
with `y2 = −120`, while the claim's endpoint `(n−1, mean + trend·(n−1)/2)`
with `n = 2` (the valid-value count) maps to `(305, 0)`. -/
theorem trend_overlay_threshold_cex :
    statistics "x" rowsEdge = some (computeStats (values "x" rowsEdge)) ∧
    (computeStats (values "x" rowsEdge)).trend = 0.1 ∧
    ¬(0.1 < |(computeStats (values "x" rowsEdge)).trend|) ∧
    (values "x" rowsEdge).length = 2 ∧
    rowsEdge.length = 3 ∧
    sceneTrendLines (svgChart rowsEdge paramsEdge (fun q => statistics q rowsEdge)
        ChartType.line) = [("x", { x1 := 0, y1 := 360, x2 := 610, y2 := -120 })] ∧
    scaleX rowsEdge.length (((values "x" rowsEdge).length : ℚ) - 1) = 305 ∧
    scaleY paramsEdge rowsEdge ((computeStats (values "x" rowsEdge)).mean
      + (computeStats (values "x" rowsEdge)).trend
        * (((values "x" rowsEdge).length : ℚ) - 1) / 2) = 0 := by
  refine ⟨by decide, by decide, by decide, by decide, by decide, by decide, by decide,
    by decide⟩

/-- Closed witness for `bar_geometry`. -/
theorem bar_geometry_witness :
    (∀ v ∈ seriesParsed "Temp" rowsTY, v.isInf = false) ∧
    (barsFor paramsTY rowsTY 0 "Temp").length
      = ((seriesParsed "Temp" rowsTY).filterMap ParseResult.toFin).length :=
  ⟨by decide,
    (bar_geometry rowsTY paramsTY (fun q => statistics q rowsTY) 0 "Temp" (by decide)).2.1⟩

/-- C5 counterexample: for rows `P: "abc", "5"` the single valid cell sits in
row index 1, whose x-axis location is `scaleX(1) = 610`, so a bar positioned
at that row's location (offset by series index 0) would start at
`610 − barWidth·1/2 + 0 = 488`; the source instead emits the bar at the
filtered index 0, i.e. at `scaleX(0) − barWidth/2 = −122`. -/
theorem bar_position_cex :
    barsFor paramsBar rowsBar 0 "P" = [{ x := -122, y := 240, w := 244, h := 0 }] ∧
    values "P" rowsBar = [5] ∧
    rowGet (rowsBar.getD 1 []) "P" = some "5" ∧
    scaleX rowsBar.length 1 = 610 ∧
    scaleX rowsBar.length 1
      - (244 : ℚ) * (paramsBar.length : ℚ) / 2 + (0 : ℚ) * 244 = 488 ∧
    ((-122 : ℚ)) ≠ 488 := by
  refine ⟨by decide, by decide, by decide, by decide, by decide, by decide⟩

/-- Closed witness for `correlation_value_in_unit_interval`. -/
theorem correlation_value_in_unit_interval_witness :
    (values "Temp" rowsTY).length = (values "Yield" rowsTY).length ∧
    (-1 ≤ corrValue (computeStats (values "Temp" rowsTY))
        (computeStats (values "Yield" rowsTY)) ∧
      corrValue (computeStats (values "Temp" rowsTY))
        (computeStats (values "Yield" rowsTY)) ≤ 1) :=
  ⟨by decide, correlation_value_in_unit_interval rowsTY "Temp" "Yield" (by decide)⟩

/-- C1 counterexample: with rows `A: "0","10","abc"` and `B: "0","10","5"`,
the pair `(A, B)` is produced, the filtered sequences have different lengths
(2 vs 3), and the correlation value is `5 / √(50/3) ≈ 1.22 > 1`: the
truncated 2-term numerator is normalized by the full 3-term standard
deviation of `B`, so the value leaves `[-1, 1]`. -/
theorem correlation_value_exceeds_one_cex :
    corrPairs paramsAB rowsAB = [("A", "B")] ∧
    values "A" rowsAB = [0, 10] ∧
    values "B" rowsAB = [0, 10, 5] ∧
    1 < corrValue (computeStats (values "A" rowsAB)) (computeStats (values "B" rowsAB)) := by
  refine ⟨by decide, by decide, by decide, ?_⟩
  have hvA : (computeStats (values "A" rowsAB)).variance = 25 := by decide
  have hvB : (computeStats (values "B" rowsAB)).variance = 50 / 3 := by decide
  have hmin : Nat.min (computeStats (values "A" rowsAB)).values.length
      (computeStats (values "B" rowsAB)).values.length = 2 := by decide
  have hcs : corrSum (computeStats (values "A" rowsAB))
      (computeStats (values "B" rowsAB)) 2 = 50 := by decide
  have hsA : (computeStats (values "A" rowsAB)).stdDev = 5 := by
    rw [Stats.stdDev, hvA, show (((25 : ℚ)) : ℝ) = 5 ^ 2 from by push_cast; norm_num]
    exact Real.sqrt_sq (by norm_num)
  have hsB : (computeStats (values "B" rowsAB)).stdDev = Real.sqrt (50 / 3) := by
    rw [Stats.stdDev, hvB]
    congr 1
    push_cast
    norm_num
  have hposB : (0 : ℝ) < Real.sqrt (50 / 3) := Real.sqrt_pos.mpr (by norm_num)
  have h53 : Real.sqrt ((50 : ℝ) / 3) < 5 :=
    (Real.sqrt_lt' (show (0 : ℝ) < 5 from by norm_num)).mpr (by norm_num)
  rw [corrValue, hmin, hcs,
    if_pos ⟨by rw [hsA]; norm_num, by rw [hsB]; exact hposB⟩, hsA, hsB,
    show (((50 : ℚ)) : ℝ) = 50 from by norm_num]
  rw [one_lt_div (by positivity)]
  push_cast
  linarith

/-- C9: the computed `trend` coincides with the spec's ordinary least-squares
slope of the values against their 0-based index (covariance over index
variance, `0` when `n ≤ 1`); on a strictly increasing arithmetic sequence
with common difference `d` it is positive and equals `d` (in particular `1`
on `[1,2,3,4,5]`), and on a constant sequence it is `0`. -/
theorem trend_is_ols_slope :
    (∀ vs : List ℚ, (computeStats vs).trend = specOlsSlope vs) ∧
    (∀ (a d : ℚ) (n : ℕ), 2 ≤ n → (computeStats (arithSeq a d n)).trend = d) ∧
    (∀ (a d : ℚ) (n : ℕ), 2 ≤ n → 0 < d → 0 < (computeStats (arithSeq a d n)).trend) ∧
    (∀ (c : ℚ) (n : ℕ), (computeStats (List.replicate n c)).trend = 0) ∧
    (∀ vs : List ℚ, vs.length ≤ 1 → (computeStats vs).trend = 0) ∧
    (computeStats [1, 2, 3, 4, 5]).trend = 1 := by
  refine ⟨trend_eq_specOlsSlope, fun a d n hn => trend_arithSeq a d n hn,
    fun a d n hn hd => ?_, fun c n => trend_replicate c n, fun vs h => ?_, by decide⟩
  · rw [trend_arithSeq a d n hn]
    exact hd
  · rw [computeStats_trend, if_neg (by omega)]

/-- Closed witness for `trend_is_ols_slope`. -/
theorem trend_is_ols_slope_witness :
    (2 ≤ 5 ∧ (0 : ℚ) < 1 / 2) ∧
    (computeStats (arithSeq 0 (1 / 2) 5)).trend = 1 / 2 ∧
    0 < (computeStats (arithSeq 0 (1 / 2) 5)).trend ∧
    ([(7 : ℚ)].length ≤ 1 ∧ (computeStats [(7 : ℚ)]).trend = 0) :=
  ⟨⟨by norm_num, by norm_num⟩,
   trend_is_ols_slope.2.1 0 (1 / 2) 5 (by norm_num),
   trend_is_ols_slope.2.2.1 0 (1 / 2) 5 (by norm_num) (by norm_num),
   ⟨by norm_num, trend_is_ols_slope.2.2.2.2.1 [(7 : ℚ)] (by norm_num)⟩⟩

/-- C2: the spec's end-to-end scenario.  For the Temp/Yield rows the
statistics are `n = 3`, `mean = 25`, `median = 25`, `min = 20`, `max = 30`,
`range = 10`, `stdDev ≈ 4.08` (within `0.01`), `cv ≈ 16.3` (within `0.1`),
`trend = 5` — analogously for Yield with `trend = 5` — and the pair
`(Temp, Yield)` gets a correlation entry of value exactly `1` (in exact
arithmetic) with strength `"strong"`. -/
theorem end_to_end_scenario :
    statistics "Temp" rowsTY = some statsTemp ∧
    statsTemp.n = 3 ∧ statsTemp.mean = 25 ∧ statsTemp.median = 25 ∧
    statsTemp.min = 20 ∧ statsTemp.max = 30 ∧ statsTemp.range = 10 ∧
    |statsTemp.stdDev - 4.08| < 1 / 100 ∧ |statsTemp.cv - 16.3| < 1 / 10 ∧
    statsTemp.trend = 5 ∧
    statistics "Yield" rowsTY = some statsYield ∧
    statsYield.n = 3 ∧ statsYield.mean = 55 ∧ statsYield.median = 55 ∧
    statsYield.min = 50 ∧ statsYield.max = 60 ∧ statsYield.range = 10 ∧
    |statsYield.stdDev - 4.08| < 1 / 100 ∧ statsYield.trend = 5 ∧
    corrPairs paramsTY rowsTY = [("Temp", "Yield")] ∧
    corrValue statsTemp statsYield = 1 ∧
    strengthOf (corrValue statsTemp statsYield) = "strong" := by
  have hvT : statsTemp.variance = 50 / 3 := by decide
  have hvY : statsYield.variance = 50 / 3 := by decide
  have hsT : statsTemp.stdDev = Real.sqrt (50 / 3) := by
    rw [Stats.stdDev, hvT]
    congr 1
    push_cast
    norm_num
  have hsY : statsYield.stdDev = Real.sqrt (50 / 3) := by
    rw [Stats.stdDev, hvY]
    congr 1
    push_cast
    norm_num
  have hb1 : (4.08 : ℝ) < Real.sqrt (50 / 3) := by
    rw [show (4.08 : ℝ) = 4.08 from rfl]
    exact (Real.lt_sqrt (by norm_num)).mpr (by norm_num)
  have hb2 : Real.sqrt ((50 : ℝ) / 3) < 4.09 := (Real.sqrt_lt' (by norm_num)).mpr (by norm_num)
  have hpos : (0 : ℝ) < Real.sqrt (50 / 3) := Real.sqrt_pos.mpr (by norm_num)
  have hmT : statsTemp.mean = 25 := by decide
  have hmin3 : Nat.min statsTemp.values.length statsYield.values.length = 3 := by decide
  have hcs : corrSum statsTemp statsYield 3 = 50 := by decide
  have hcv : corrValue statsTemp statsYield = 1 := by
    rw [corrValue, hmin3, hcs, if_pos ⟨by rw [hsT]; exact hpos, by rw [hsY]; exact hpos⟩,
      hsT, hsY]
    push_cast
    rw [mul_assoc, Real.mul_self_sqrt (by norm_num)]
    norm_num
  refine ⟨by decide, by decide, by decide, by decide, by decide, by decide, by decide,
    ?_, ?_, by decide, by decide, by decide, by decide, by decide, by decide, by decide,
    by decide, ?_, by decide, by decide, hcv, ?_⟩
  · rw [hsT, abs_sub_lt_iff]
    constructor <;> linarith
  · rw [Stats.cv, hsT, hmT, abs_sub_lt_iff]
    have h25 : ((25 : ℚ) : ℝ) = 25 := by norm_num
    rw [h25]
    constructor <;> linarith
  · rw [hsY, abs_sub_lt_iff]
    constructor <;> linarith
  · rw [hcv, strengthOf, if_pos (by rw [abs_one]; norm_num)]

/-- Closed witness for `insufficient_pair_omitted`. -/
theorem insufficient_pair_omitted_witness :
    Nat.min (parsedValues "P1" rowsOneFive).length (parsedValues "P2" rowsOneFive).length < 2 ∧
    ("P1", "P2") ∉ corrPairs paramsOneFive rowsOneFive :=
  ⟨by decide, insufficient_pair_omitted.1 paramsOneFive rowsOneFive "P1" "P2" (by decide)⟩

/-- C10: with parameters `a`, `b-c`, `a-b`, `c` (all with ≥ 2 finite values),
the distinct unordered pairs `(a, b-c)` and `(a-b, c)` both produce the
result key `"a-b-c"`, so the later entry overwrites the earlier one and the
correlation object holds 5 entries for 6 qualifying pairs; the surviving
entry under `"a-b-c"` describes the pair `(a-b, c)`. -/
theorem corr_key_collision_shrinks_object :
    corrPairs paramsHyphen rowsHyphen =
      [("a", "b-c"), ("a", "a-b"), ("a", "c"), ("b-c", "a-b"), ("b-c", "c"), ("a-b", "c")] ∧
    ("a", "b-c") ≠ ("a-b", "c") ∧
    corrKey ("a", "b-c") = corrKey ("a-b", "c") ∧
    (corrObject paramsHyphen rowsHyphen).length = 5 ∧
    (corrPairs paramsHyphen rowsHyphen).length = 6 ∧
    (corrObject paramsHyphen rowsHyphen).find? (fun kv => kv.1 == "a-b-c") =
      some ("a-b-c", ("a-b", "c")) := by
  refine ⟨by decide, by decide, by decide, by decide, by decide, by decide⟩

end DecideEval

end LabFlow
